import Mathlib

/-!
Shallow embedding of the Splitwise-App backend (`src/main.py`).

Monetary amounts are modelled as exact rationals (the JSON decimal values);
ids are integers (SQLite autoincrement primary keys).  Python's
`round(x, 2)` (round-half-to-even on the scaled value) is modelled by
`round2`.  Fallible JSON field access / parsing is modelled with `Option`:
for a request field, `none` means the key is absent, and for a parsed
field, an inner `none` means the Python conversion (`float(...)`,
`int(...)`) raises.  Route handlers become functions from a `Store` (the
database contents) and a request to a result paired with the new store.

The embedding has two arithmetic levels.  The primary definitions
(`create_expense`, `get_balances`, `round2`) compute with exact decimal
arithmetic — adequate for the control-flow, atomicity and zero/skip
properties, which are insensitive to rounding.  The `*F`/`*_fp` definitions
re-run the same routes with IEEE-754 binary64 arithmetic (`roundDouble`),
which the program actually uses; they decide the properties that hinge on
the tolerance boundary or on summation order.
-/

attribute [local semireducible] Rat.add Rat.mul Rat.sub Rat.inv Rat.ofScientific

namespace Splitwise

/-- Python `str.strip()` with no argument: drop leading and trailing
whitespace characters. -/
def pyStrip (s : String) : String :=
  ⟨((s.data.dropWhile Char.isWhitespace).reverse.dropWhile Char.isWhitespace).reverse⟩

/-- Python `round(x, 2)` at the decimal level: round-half-to-even of `x*100`,
scaled back.  This is the exact-decimal idealization; `pyRound2` below adds
the binary64 step CPython performs. -/
def roundHalfEven (x : ℚ) : ℤ :=
  let f := ⌊x⌋
  if x - f < 1/2 then f
  else if 1/2 < x - f then f + 1
  else if f % 2 = 0 then f else f + 1

def round2 (x : ℚ) : ℚ := (roundHalfEven (x * 100) : ℚ) / 100

/-- The model `class User(db.Model)` in `src/main.py`. -/
structure User where
  id : ℤ
  username : String
  email : String
deriving DecidableEq, Repr

/-- The model `class Expense(db.Model)` in `src/main.py`. -/
structure Expense where
  id : ℤ
  description : String
  amount : ℚ
  currency : String
  payer_id : ℤ
deriving DecidableEq, Repr

/-- The model `class ExpenseSplit(db.Model)` in `src/main.py`. -/
structure ExpenseSplit where
  id : ℤ
  expense_id : ℤ
  user_id : ℤ
  amount : ℚ
  percentage : Option ℚ
deriving DecidableEq, Repr

/-- The database contents. -/
structure Store where
  users : List User
  expenses : List Expense
  splits : List ExpenseSplit
deriving DecidableEq, Repr

/-- Autoincrement primary key for a new user row. -/
def nextUserId (st : Store) : ℤ := (st.users.map (·.id)).foldl max 0 + 1

/-- Autoincrement primary key for a new expense row. -/
def nextExpenseId (st : Store) : ℤ := (st.expenses.map (·.id)).foldl max 0 + 1

/-- Autoincrement primary key base for new split rows. -/
def nextSplitId (st : Store) : ℤ := (st.splits.map (·.id)).foldl max 0 + 1

/-! ## create_user (`src/main.py` lines 48-60) -/

inductive UserErr where
  | missingFields   -- 'username and email required'
  | duplicateUser   -- 'username or email already exists'
deriving DecidableEq, Repr

inductive CreateUserResult where
  | created (uid : ℤ)
  | rejected (e : UserErr)
deriving DecidableEq, Repr

/-- Route `create_user`: `data.get('username','')`/`data.get('email','')` give the
raw strings (a missing key behaves like an empty string); both are stripped, empty
values are rejected, then the duplicate check compares the stripped values
against stored rows with SQL `=` (exact, case-sensitive). -/
def create_user (st : Store) (username_raw email_raw : String) :
    CreateUserResult × Store :=
  let username := pyStrip username_raw
  let email := pyStrip email_raw
  if username = "" ∨ email = "" then (.rejected .missingFields, st)
  else if st.users.any (fun u => u.username == username || u.email == email) then
    (.rejected .duplicateUser, st)
  else
    let u : User := ⟨nextUserId st, username, email⟩
    (.created u.id, ⟨st.users ++ [u], st.expenses, st.splits⟩)

/-! ## get_balances (`src/main.py` lines 153-184, the active implementation) -/

/-- One per-user accumulator cell of the `balances` dict. -/
structure Acc where
  total_paid : ℚ
  total_owes : ℚ
deriving DecidableEq, Repr

/-- The dict `balances` seeded as zero for every user,
modelled as the dict's lookup function. -/
def initBalances (users : List User) : ℤ → Option Acc :=
  fun k => if users.any (fun u => u.id == k) then some ⟨0, 0⟩ else none

/-- One iteration of the expense loop:
`if payer_id in balances: balances[payer_id]['total_paid'] += float(expense.amount)`. -/
def payStep (b : ℤ → Option Acc) (e : Expense) : ℤ → Option Acc :=
  fun k => if k = e.payer_id then
    (b k).map (fun a => ⟨a.total_paid + e.amount, a.total_owes⟩)
  else b k

/-- One iteration of the split loop:
`if user_id in balances: balances[user_id]['total_owes'] += float(split.amount)`. -/
def oweStep (b : ℤ → Option Acc) (s : ExpenseSplit) : ℤ → Option Acc :=
  fun k => if k = s.user_id then
    (b k).map (fun a => ⟨a.total_paid, a.total_owes + s.amount⟩)
  else b k

/-- The `balances` dict after both accumulation loops. -/
def accBalances (st : Store) : ℤ → Option Acc :=
  st.splits.foldl oweStep (st.expenses.foldl payStep (initBalances st.users))

/-- One value of the `result` dict of `get_balances`. -/
structure BalanceEntry where
  user_id : ℤ
  username : String
  total_paid : ℚ
  total_owes : ℚ
  net_balance : ℚ
deriving DecidableEq, Repr

/-- Route `get_balances`: the `result` dict, modelled as its list of values in user
order (one entry per user; ids are primary keys so per-user entries are the
dict's values).  `balances[user.id]` cannot miss (every user seeds the dict),
so the `getD` default is unreachable.  Accumulation here is exact decimal;
`get_balances_fp` below refines it to binary64. -/
def get_balances (st : Store) : List BalanceEntry :=
  st.users.map (fun u =>
    let a := (accBalances st u.id).getD ⟨0, 0⟩
    let tp := round2 a.total_paid
    let tw := round2 a.total_owes
    ⟨u.id, u.username, tp, tw, round2 (tp - tw)⟩)

/-- Unrounded total paid by user id `k`: the amounts of all expenses whose
`payer_id` is `k`. -/
def paidSum (st : Store) (k : ℤ) : ℚ :=
  ((st.expenses.filter (fun e => e.payer_id == k)).map (·.amount)).sum

/-- Unrounded total owed by user id `k`: the amounts of all splits whose
`user_id` is `k`. -/
def owesSum (st : Store) (k : ℤ) : ℚ :=
  ((st.splits.filter (fun s => s.user_id == k)).map (·.amount)).sum

/-! ## create_expense (`src/main.py` lines 80-121) -/

/-- One entry of the request's `splits` list.  `user_id`/`amount` are the
results of `int(s['user_id'])` / `float(s['amount'])`: `none` means the key
is missing or the value does not convert, in which case the Python call
raises (`KeyError`/`ValueError`/`TypeError`) with no handler. -/
structure SplitEntry where
  user_id : Option ℤ
  amount : Option ℚ
  percentage : Option ℚ
deriving DecidableEq, Repr

/-- The JSON body of a create-expense request.  Outer `none`: the key is
absent from `data`.  For `amount` and `payer_id` the inner `none` means the
`float(...)`/`int(...)` conversion raises. -/
structure ExpenseRequest where
  description : Option String
  amount : Option (Option ℚ)
  currency : Option String
  payer_id : Option (Option ℤ)
  splits : Option (List SplitEntry)
deriving DecidableEq, Repr

inductive ExpErr where
  | missingFields                                 -- 'missing fields'
  | invalidAmount                                 -- 'invalid amount'
  | invalidSplitOrAmount                          -- 'invalid split/amount'
  | invalidPayer                                  -- 'invalid payer'
  | invalidSplitUsers                             -- 'one or more split users are invalid'
  | splitMismatch (total_split rounded_amount : ℚ) -- f-string embedding both totals
deriving DecidableEq, Repr

/-- A Python exception that escapes the handler (HTTP 500). -/
inductive PyExn where
  | payerIdParse      -- `int(data['payer_id'])` raises, line 92
  | splitUserIdParse  -- `int(s['user_id'])` raises, line 101
  | splitAmountParse  -- `float(s['amount'])` raises, line 106
deriving DecidableEq, Repr

inductive CreateExpenseResult where
  | created (eid : ℤ)        -- 201, `{'id': e.id}`
  | rejected (e : ExpErr)    -- 400 with the error message
  | uncaught (e : PyExn)     -- unhandled exception, no JSON error response
deriving DecidableEq, Repr

/-- The `ExpenseSplit` rows written for the accepted request: ids from the
autoincrement base, `expense_id` pointing at the new expense. -/
def splitRows (base eid : ℤ) (ss : List SplitEntry) : List ExpenseSplit :=
  (List.range ss.length).zip ss |>.map (fun p =>
    ⟨base + p.1, eid, (p.2.user_id.getD 0), (p.2.amount.getD 0), p.2.percentage⟩)

/-- Route `create_expense`, following `src/main.py` lines 80-121 statement by
statement: required-key check; `description.strip()`; `float(amount)` inside
`try/except`; `int(payer_id)` with no handler; `amount <= 0 or not splits`;
payer lookup; `int(s['user_id'])` over the splits with no handler; split-user
lookups; `float(s['amount'])` with no handler and the rounded-total tolerance
check; finally the expense row plus all split rows are written.  Every
failure leaves the store unchanged.  Arithmetic here is exact decimal;
`create_expense_fp` below refines the amounts, the sum and the line-107
comparison to binary64. -/
def create_expense (st : Store) (req : ExpenseRequest) :
    CreateExpenseResult × Store :=
  match req.description, req.amount, req.currency, req.payer_id, req.splits with
  | some d, some amount_p, some currency, some payer_p, some ss =>
    let description := pyStrip d
    match amount_p with
    | none => (.rejected .invalidAmount, st)
    | some amount =>
      match payer_p with
      | none => (.uncaught .payerIdParse, st)
      | some payer_id =>
        if amount ≤ 0 ∨ ss.isEmpty then (.rejected .invalidSplitOrAmount, st)
        else if !st.users.any (fun u => u.id == payer_id) then
          (.rejected .invalidPayer, st)
        else if ss.any (fun s => s.user_id.isNone) then
          (.uncaught .splitUserIdParse, st)
        else if ss.any (fun s => !st.users.any (fun u => some u.id == s.user_id)) then
          (.rejected .invalidSplitUsers, st)
        else if ss.any (fun s => s.amount.isNone) then
          (.uncaught .splitAmountParse, st)
        else
          let total_split := round2 ((ss.map (fun s => s.amount.getD 0)).sum)
          if 1/100 < |total_split - round2 amount| then
            (.rejected (.splitMismatch total_split (round2 amount)), st)
          else
            let eid := nextExpenseId st
            let e : Expense := ⟨eid, description, amount, currency, payer_id⟩
            (.created eid,
             ⟨st.users, st.expenses ++ [e],
              st.splits ++ splitRows (nextSplitId st) eid ss⟩)
  | _, _, _, _, _ => (.rejected .missingFields, st)

/-! ## IEEE-754 binary64 layer

The definitions above compute with exact decimal arithmetic — the idealized
semantics in which the spec states its tolerance and determinism properties.
The program itself computes with Python floats (IEEE-754 binary64), and for
properties that are decided at the tolerance boundary or by summation order
that difference is observable.  The `*F`/`*_fp` definitions below model the
same routes with binary64 arithmetic: a double is represented by its exact
rational value, and every operation rounds its exact result to 53
significant bits, to nearest, ties to even (overflow and subnormal
underflow are not modelled; they are unreachable at these magnitudes). -/

/-- Fuel-driven structural `floor (log2 n)` (0 for `n ≤ 1`); the fuel `n`
itself always suffices. -/
def natLog2go : ℕ → ℕ → ℕ
  | 0, _ => 0
  | fuel + 1, m => if m ≤ 1 then 0 else 1 + natLog2go fuel (m / 2)

def natLog2 (n : ℕ) : ℕ := natLog2go n n

/-- Integer powers of two as rationals. -/
def pow2 (e : ℤ) : ℚ :=
  if 0 ≤ e then ((2 ^ e.toNat : ℕ) : ℚ) else 1 / ((2 ^ (-e).toNat : ℕ) : ℚ)

/-- Floor of the base-2 logarithm of a positive rational. -/
def ratLog2Floor (q : ℚ) : ℤ :=
  if 1 ≤ q then (natLog2 ⌊q⌋.toNat : ℤ)
  else
    let f : ℕ := natLog2 ⌊1 / q⌋.toNat
    if q * pow2 f = 1 then -(f : ℤ) else -(f : ℤ) - 1

/-- Round an exact rational to the nearest IEEE-754 binary64 value (53
significant bits, ties to even), returned as its exact rational value. -/
def roundDouble (q : ℚ) : ℚ :=
  if q = 0 then 0
  else
    let e : ℤ := ratLog2Floor |q| - 52
    ((roundHalfEven (q / pow2 e) : ℚ)) * pow2 e

/-- The binary64 value of a decimal constant: Python's `float(...)` /
JSON-number parsing. -/
def fl (q : ℚ) : ℚ := roundDouble q

/-- Binary64 addition: round the exact sum. -/
def fadd (x y : ℚ) : ℚ := roundDouble (x + y)

/-- Binary64 subtraction: round the exact difference. -/
def fsub (x y : ℚ) : ℚ := roundDouble (x - y)

/-- Python `sum(...)` over doubles: left fold of binary64 addition starting
from `0`. -/
def fsum (l : List ℚ) : ℚ := l.foldl fadd 0

/-- CPython `round(x, 2)` on a double: correctly rounded — the exact binary
value of `x` is rounded to 2 decimal places (ties to even), and the result
is the nearest double to that decimal. -/
def pyRound2 (x : ℚ) : ℚ := roundDouble (round2 x)

/-- The split rows written by the binary64 `create_expense`: amounts and
percentages go through `float(...)` (lines 117-118). -/
def splitRowsF (base eid : ℤ) (ss : List SplitEntry) : List ExpenseSplit :=
  (List.range ss.length).zip ss |>.map (fun p =>
    ⟨base + p.1, eid, (p.2.user_id.getD 0), fl (p.2.amount.getD 0),
     p.2.percentage.map fl⟩)

/-- The binary64 total of the request's split amounts:
`sum(float(s['amount']) for s in splits)` (line 106). -/
def totalSplitF (ss : List SplitEntry) : ℚ :=
  fsum (ss.map (fun s => fl (s.amount.getD 0)))

/-- Route `create_expense` with binary64 arithmetic: identical control flow
to `create_expense` above, but `float(...)` conversions round to binary64,
the split total is the binary64 left-fold sum, `round(·, 2)` is CPython
rounding, and line 107 compares binary64 values against the double nearest
0.01. -/
def create_expense_fp (st : Store) (req : ExpenseRequest) :
    CreateExpenseResult × Store :=
  match req.description, req.amount, req.currency, req.payer_id, req.splits with
  | some d, some amount_p, some currency, some payer_p, some ss =>
    let description := pyStrip d
    match amount_p with
    | none => (.rejected .invalidAmount, st)
    | some a0 =>
      let amount := fl a0
      match payer_p with
      | none => (.uncaught .payerIdParse, st)
      | some payer_id =>
        if amount ≤ 0 ∨ ss.isEmpty then (.rejected .invalidSplitOrAmount, st)
        else if !st.users.any (fun u => u.id == payer_id) then
          (.rejected .invalidPayer, st)
        else if ss.any (fun s => s.user_id.isNone) then
          (.uncaught .splitUserIdParse, st)
        else if ss.any (fun s => !st.users.any (fun u => some u.id == s.user_id)) then
          (.rejected .invalidSplitUsers, st)
        else if ss.any (fun s => s.amount.isNone) then
          (.uncaught .splitAmountParse, st)
        else
          let total_split := pyRound2 (totalSplitF ss)
          if fl (1/100) < |fsub total_split (pyRound2 amount)| then
            (.rejected (.splitMismatch total_split (pyRound2 amount)), st)
          else
            let eid := nextExpenseId st
            let e : Expense := ⟨eid, description, amount, currency, payer_id⟩
            (.created eid,
             ⟨st.users, st.expenses ++ [e],
              st.splits ++ splitRowsF (nextSplitId st) eid ss⟩)
  | _, _, _, _, _ => (.rejected .missingFields, st)

/-- Binary64 expense loop iteration (line 162 converts with `float(...)` and
accumulates in doubles). -/
def payStepF (b : ℤ → Option Acc) (e : Expense) : ℤ → Option Acc :=
  fun k => if k = e.payer_id then
    (b k).map (fun a => ⟨fadd a.total_paid (fl e.amount), a.total_owes⟩)
  else b k

/-- Binary64 split loop iteration (line 168). -/
def oweStepF (b : ℤ → Option Acc) (s : ExpenseSplit) : ℤ → Option Acc :=
  fun k => if k = s.user_id then
    (b k).map (fun a => ⟨a.total_paid, fadd a.total_owes (fl s.amount)⟩)
  else b k

/-- The `balances` dict after both binary64 accumulation loops. -/
def accBalancesF (st : Store) : ℤ → Option Acc :=
  st.splits.foldl oweStepF (st.expenses.foldl payStepF (initBalances st.users))

/-- Route `get_balances` with binary64 arithmetic: accumulation in doubles,
output figures through CPython `round(·, 2)`, net as the binary64 difference
of the rounded figures (line 174). -/
def get_balances_fp (st : Store) : List BalanceEntry :=
  st.users.map (fun u =>
    let a := (accBalancesF st u.id).getD ⟨0, 0⟩
    let tp := pyRound2 a.total_paid
    let tw := pyRound2 a.total_owes
    ⟨u.id, u.username, tp, tw, pyRound2 (fsub tp tw)⟩)

/-! ## Helper lemmas -/

theorem roundHalfEven_intCast (n : ℤ) : roundHalfEven (n : ℚ) = n := by
  unfold roundHalfEven
  norm_num

/-- Rounding with `round2` is the identity on exact multiples of one cent. -/
theorem round2_cent (k : ℤ) : round2 ((k : ℚ) / 100) = (k : ℚ) / 100 := by
  unfold round2
  rw [div_mul_cancel₀ _ (by norm_num : (100 : ℚ) ≠ 0), roundHalfEven_intCast]

/-- Every `round2` output is an exact multiple of one cent. -/
theorem round2_eq_cent (x : ℚ) : ∃ k : ℤ, round2 x = (k : ℚ) / 100 :=
  ⟨roundHalfEven (x * 100), rfl⟩

/-- Rounding a difference of already-rounded figures changes nothing. -/
theorem round2_sub_round2 (x y : ℚ) :
    round2 (round2 x - round2 y) = round2 x - round2 y := by
  obtain ⟨kx, hx⟩ := round2_eq_cent x
  obtain ⟨ky, hy⟩ := round2_eq_cent y
  rw [hx, hy, div_sub_div_same, ← Int.cast_sub, round2_cent]

theorem foldl_payStep (es : List Expense) (b : ℤ → Option Acc) (k : ℤ) :
    (es.foldl payStep b) k
      = (b k).map (fun a =>
          ⟨a.total_paid + ((es.filter (fun e => e.payer_id == k)).map (·.amount)).sum,
           a.total_owes⟩) := by
  induction es generalizing b with
  | nil =>
    cases hb : b k <;> simp [hb]
  | cons e es ih =>
    rw [List.foldl_cons, ih (payStep b e)]
    by_cases h : k = e.payer_id
    · subst h
      cases hb : b e.payer_id with
      | none => simp [payStep, hb]
      | some a => simp [payStep, hb, List.filter_cons, add_assoc]
    · have h2 : ¬ e.payer_id = k := fun hk => h hk.symm
      cases hb : b k with
      | none => simp [payStep, hb, h, h2, List.filter_cons]
      | some a => simp [payStep, hb, h, h2, List.filter_cons]

theorem foldl_oweStep (sp : List ExpenseSplit) (b : ℤ → Option Acc) (k : ℤ) :
    (sp.foldl oweStep b) k
      = (b k).map (fun a =>
          ⟨a.total_paid,
           a.total_owes + ((sp.filter (fun s => s.user_id == k)).map (·.amount)).sum⟩) := by
  induction sp generalizing b with
  | nil =>
    cases hb : b k <;> simp [hb]
  | cons s sp ih =>
    rw [List.foldl_cons, ih (oweStep b s)]
    by_cases h : k = s.user_id
    · subst h
      cases hb : b s.user_id with
      | none => simp [oweStep, hb]
      | some a => simp [oweStep, hb, List.filter_cons, add_assoc]
    · have h2 : ¬ s.user_id = k := fun hk => h hk.symm
      cases hb : b k with
      | none => simp [oweStep, hb, h, h2, List.filter_cons]
      | some a => simp [oweStep, hb, h, h2, List.filter_cons]

/-- The accumulation loops compute, for every user id in the dict, the
unrounded per-user sums; ids outside the dict stay absent. -/
theorem accBalances_eq (st : Store) (k : ℤ) :
    accBalances st k
      = if st.users.any (fun u => u.id == k) then some ⟨paidSum st k, owesSum st k⟩
        else none := by
  unfold accBalances
  rw [foldl_oweStep, foldl_payStep]
  unfold initBalances paidSum owesSum
  by_cases h : st.users.any (fun u => u.id == k) <;> simp [h]

/-- Route `get_balances` computed entrywise: each user's entry carries the rounded
per-user sums and their exact difference. -/
theorem get_balances_eq (st : Store) :
    get_balances st
      = st.users.map (fun u =>
          ⟨u.id, u.username, round2 (paidSum st u.id), round2 (owesSum st u.id),
           round2 (paidSum st u.id) - round2 (owesSum st u.id)⟩) := by
  unfold get_balances
  refine List.map_congr_left (fun u hu => ?_)
  have hmem : st.users.any (fun v => v.id == u.id) = true := by
    refine List.any_eq_true.mpr ⟨u, hu, ?_⟩
    simp
  rw [accBalances_eq]
  simp only [hmem, if_true, Option.getD_some]
  rw [round2_sub_round2]

theorem splitRows_length (base eid : ℤ) (ss : List SplitEntry) :
    (splitRows base eid ss).length = ss.length := by
  simp [splitRows]

theorem splitRows_expense_id (base eid : ℤ) (ss : List SplitEntry) :
    ∀ r ∈ splitRows base eid ss, r.expense_id = eid := by
  intro r hr
  simp only [splitRows, List.map_eq_map, List.mem_map] at hr
  obtain ⟨p, _, rfl⟩ := hr
  rfl

/-- The unrounded total of the request's split amounts (all parses assumed to
succeed, so the `getD` defaults are never used). -/
def totalSplitRaw (ss : List SplitEntry) : ℚ :=
  (ss.map (fun s => s.amount.getD 0)).sum

/-- Running `create_expense` on a request that passes every check before the
split-total comparison (line 106 of `src/main.py`): the outcome is decided
entirely by the rounded-tolerance test, and on acceptance the expense row and
all split rows are appended. -/
theorem create_expense_split_check (st : Store) (d c : String) (a : ℚ) (pid : ℤ)
    (ss : List SplitEntry)
    (hpos : 0 < a) (hne : ss ≠ [])
    (hpayer : st.users.any (fun u => u.id == pid) = true)
    (huid : ∀ s ∈ ss, s.user_id.isSome)
    (husers : ∀ s ∈ ss, st.users.any (fun u => some u.id == s.user_id) = true)
    (hamt : ∀ s ∈ ss, s.amount.isSome) :
    create_expense st ⟨some d, some (some a), some c, some (some pid), some ss⟩
      = if 1/100 < |round2 (totalSplitRaw ss) - round2 a| then
          (.rejected (.splitMismatch (round2 (totalSplitRaw ss)) (round2 a)), st)
        else
          (.created (nextExpenseId st),
           ⟨st.users, st.expenses ++ [⟨nextExpenseId st, pyStrip d, a, c, pid⟩],
            st.splits ++ splitRows (nextSplitId st) (nextExpenseId st) ss⟩) := by
  have h1 : ¬ (a ≤ 0 ∨ ss.isEmpty = true) := by
    rintro (h | h)
    · exact absurd hpos (not_lt.mpr h)
    · exact hne (List.isEmpty_iff.mp h)
  have h2 : (!st.users.any fun u => u.id == pid) = false := by
    rw [hpayer]; rfl
  have h3 : (ss.any fun s => s.user_id.isNone) = false := by
    rw [List.any_eq_false]
    intro s hs
    simp [Option.isNone_iff_eq_none]
    exact Option.isSome_iff_ne_none.mp (huid s hs)
  have h4 : (ss.any fun s => !st.users.any fun u => some u.id == s.user_id) = false := by
    rw [List.any_eq_false]
    intro s hs
    rw [husers s hs]
    rintro ⟨⟩
  have h5 : (ss.any fun s => s.amount.isNone) = false := by
    rw [List.any_eq_false]
    intro s hs
    simp [Option.isNone_iff_eq_none]
    exact Option.isSome_iff_ne_none.mp (hamt s hs)
  simp only [create_expense, h1, h2, h3, h4, h5, if_false, Bool.false_eq_true,
    if_true, totalSplitRaw]

theorem foldl_payStepF (es : List Expense) (b : ℤ → Option Acc) (k : ℤ) :
    (es.foldl payStepF b) k
      = (b k).map (fun a =>
          ⟨((es.filter (fun e => e.payer_id == k)).map (·.amount)).foldl
              (fun x q => fadd x (fl q)) a.total_paid,
           a.total_owes⟩) := by
  induction es generalizing b with
  | nil =>
    cases hb : b k <;> simp [hb]
  | cons e es ih =>
    rw [List.foldl_cons, ih (payStepF b e)]
    by_cases h : k = e.payer_id
    · subst h
      cases hb : b e.payer_id with
      | none => simp [payStepF, hb]
      | some a => simp [payStepF, hb, List.filter_cons]
    · have h2 : ¬ e.payer_id = k := fun hk => h hk.symm
      cases hb : b k with
      | none => simp [payStepF, hb, h, h2, List.filter_cons]
      | some a => simp [payStepF, hb, h, h2, List.filter_cons]

theorem foldl_oweStepF (sp : List ExpenseSplit) (b : ℤ → Option Acc) (k : ℤ) :
    (sp.foldl oweStepF b) k
      = (b k).map (fun a =>
          ⟨a.total_paid,
           ((sp.filter (fun s => s.user_id == k)).map (·.amount)).foldl
              (fun x q => fadd x (fl q)) a.total_owes⟩) := by
  induction sp generalizing b with
  | nil =>
    cases hb : b k <;> simp [hb]
  | cons s sp ih =>
    rw [List.foldl_cons, ih (oweStepF b s)]
    by_cases h : k = s.user_id
    · subst h
      cases hb : b s.user_id with
      | none => simp [oweStepF, hb]
      | some a => simp [oweStepF, hb, List.filter_cons]
    · have h2 : ¬ s.user_id = k := fun hk => h hk.symm
      cases hb : b k with
      | none => simp [oweStepF, hb, h, h2, List.filter_cons]
      | some a => simp [oweStepF, hb, h, h2, List.filter_cons]

/-- Running `create_expense_fp` on a request that passes every check before
the split-total comparison: the outcome is decided entirely by the binary64
tolerance test of line 107, and on acceptance the expense row and all split
rows are appended. -/
theorem create_expense_fp_split_check (st : Store) (d c : String) (a : ℚ)
    (pid : ℤ) (ss : List SplitEntry)
    (hpos : 0 < fl a) (hne : ss ≠ [])
    (hpayer : st.users.any (fun u => u.id == pid) = true)
    (huid : ∀ s ∈ ss, s.user_id.isSome)
    (husers : ∀ s ∈ ss, st.users.any (fun u => some u.id == s.user_id) = true)
    (hamt : ∀ s ∈ ss, s.amount.isSome) :
    create_expense_fp st ⟨some d, some (some a), some c, some (some pid), some ss⟩
      = if fl (1/100) < |fsub (pyRound2 (totalSplitF ss)) (pyRound2 (fl a))| then
          (.rejected (.splitMismatch (pyRound2 (totalSplitF ss)) (pyRound2 (fl a))), st)
        else
          (.created (nextExpenseId st),
           ⟨st.users, st.expenses ++ [⟨nextExpenseId st, pyStrip d, fl a, c, pid⟩],
            st.splits ++ splitRowsF (nextSplitId st) (nextExpenseId st) ss⟩) := by
  have h1 : ¬ (fl a ≤ 0 ∨ ss.isEmpty = true) := by
    rintro (h | h)
    · exact absurd hpos (not_lt.mpr h)
    · exact hne (List.isEmpty_iff.mp h)
  have h2 : (!st.users.any fun u => u.id == pid) = false := by
    rw [hpayer]; rfl
  have h3 : (ss.any fun s => s.user_id.isNone) = false := by
    rw [List.any_eq_false]
    intro s hs
    simp [Option.isNone_iff_eq_none]
    exact Option.isSome_iff_ne_none.mp (huid s hs)
  have h4 : (ss.any fun s => !st.users.any fun u => some u.id == s.user_id) = false := by
    rw [List.any_eq_false]
    intro s hs
    rw [husers s hs]
    rintro ⟨⟩
  have h5 : (ss.any fun s => s.amount.isNone) = false := by
    rw [List.any_eq_false]
    intro s hs
    simp [Option.isNone_iff_eq_none]
    exact Option.isSome_iff_ne_none.mp (hamt s hs)
  simp only [create_expense_fp, h1, h2, h3, h4, h5, if_false, Bool.false_eq_true,
    if_true]

/-! ## Sample data for witnesses -/

def sampleUsers : List User :=
  [⟨1, "alice", "alice@x.com"⟩, ⟨2, "bob", "bob@x.com"⟩, ⟨3, "carol", "carol@x.com"⟩]

/-- Three users; alice paid a 30-unit dinner split 10/10/10. -/
def sampleStore : Store :=
  ⟨sampleUsers,
   [⟨1, "dinner", 30, "USD", 1⟩],
   [⟨1, 1, 1, 10, none⟩, ⟨2, 1, 2, 10, none⟩, ⟨3, 1, 3, 10, none⟩]⟩

/-! ## Claims -/

/-- C1 counterexample: the claimed exact-decimal tolerance is not what the
program tests — line 107 compares binary64 values.  A request with a single
split of 29.99 against amount 30.00 (passing every existence/parse check)
has a decimal-rounded difference of exactly 0.01, so the claim says it is
accepted; the program computes `abs(29.99 - 30.0)` ≈ 0.010000000000001563 in
doubles, which exceeds the double nearest 0.01, and rejects it with
SplitMismatch. -/
theorem claim_C1_counterexample :
    |round2 ((2999 : ℚ)/100) - round2 (30 : ℚ)| ≤ 1/100
    ∧ (create_expense_fp sampleStore
        ⟨some "fees", some (some 30), some "USD", some (some 1),
         some [⟨some 1, some (2999/100), none⟩]⟩).1
        = .rejected (.splitMismatch (fl (2999/100)) 30) := by decide

/-- C1 amended: for every create-expense request whose description, amount,
payer and split users pass the existence/parse checks, the request is
accepted iff the program's binary64 comparison succeeds — the absolute
binary64 difference between the split total (the CPython 2-decimal rounding
of the binary64 sum of the split amounts) and the CPython 2-decimal rounding
of the amount is at most the double nearest 0.01; any split set violating
that comparison is rejected with a SplitMismatch error embedding both
totals.  (The exact-decimal form of the tolerance decides all cases except
those at the boundary, where binary64 rounding decides.) -/
theorem claim_C1_amended (st : Store) (d c : String) (a : ℚ) (pid : ℤ)
    (ss : List SplitEntry)
    (hpos : 0 < fl a) (hne : ss ≠ [])
    (hpayer : st.users.any (fun u => u.id == pid) = true)
    (huid : ∀ s ∈ ss, s.user_id.isSome)
    (husers : ∀ s ∈ ss, st.users.any (fun u => some u.id == s.user_id) = true)
    (hamt : ∀ s ∈ ss, s.amount.isSome) :
    ((create_expense_fp st ⟨some d, some (some a), some c, some (some pid), some ss⟩).1
        = .created (nextExpenseId st)
      ↔ |fsub (pyRound2 (totalSplitF ss)) (pyRound2 (fl a))| ≤ fl (1/100))
    ∧ (fl (1/100) < |fsub (pyRound2 (totalSplitF ss)) (pyRound2 (fl a))| →
        (create_expense_fp st ⟨some d, some (some a), some c, some (some pid), some ss⟩).1
          = .rejected (.splitMismatch (pyRound2 (totalSplitF ss)) (pyRound2 (fl a)))) := by
  rw [create_expense_fp_split_check st d c a pid ss hpos hne hpayer huid husers hamt]
  by_cases h : fl (1/100) < |fsub (pyRound2 (totalSplitF ss)) (pyRound2 (fl a))|
  · rw [if_pos h]
    exact ⟨iff_of_false (fun hx => nomatch hx) (not_le.mpr h), fun _ => rfl⟩
  · rw [if_neg h]
    exact ⟨iff_of_true rfl (not_lt.mp h), fun hc => absurd hc h⟩

theorem claim_C1_amended_witness :
    ((create_expense_fp sampleStore
        ⟨some "taxi", some (some 10), some "USD", some (some 2),
         some [⟨some 2, some 4, none⟩, ⟨some 3, some 6, none⟩]⟩).1
        = .created (nextExpenseId sampleStore)
      ↔ |fsub (pyRound2 (totalSplitF [⟨some 2, some 4, none⟩, ⟨some 3, some 6, none⟩]))
            (pyRound2 (fl 10))| ≤ fl (1/100))
    ∧ (fl (1/100) < |fsub (pyRound2 (totalSplitF [⟨some 2, some 4, none⟩, ⟨some 3, some 6, none⟩]))
            (pyRound2 (fl 10))| →
        (create_expense_fp sampleStore
          ⟨some "taxi", some (some 10), some "USD", some (some 2),
           some [⟨some 2, some 4, none⟩, ⟨some 3, some 6, none⟩]⟩).1
          = .rejected (.splitMismatch
              (pyRound2 (totalSplitF [⟨some 2, some 4, none⟩, ⟨some 3, some 6, none⟩]))
              (pyRound2 (fl 10)))) :=
  claim_C1_amended sampleStore "taxi" "USD" 10 2
    [⟨some 2, some 4, none⟩, ⟨some 3, some 6, none⟩]
    (by decide) (by decide) (by decide) (by decide) (by decide) (by decide)

/-- C7 is right about the intent and refuted by the program's arithmetic:
the spec's own scenario (splits summing to 29.995 against amount 30.00) is
within the decimal tolerance — `round(29.995, 2) = 30.00`, difference
0 ≤ 0.01 — yet the program rejects it, because `float(9.995)` falls below
9.995, the binary64 sum 20.0 + float(9.995) lands at ≈29.994999999999997,
CPython rounds it to 29.99, and `abs(29.99 - 30.0)` ≈ 0.010000000000001563
exceeds the double nearest 0.01, so line 107 signals SplitMismatch.  The
tolerance exists precisely to absorb this floating-point drift, so the
rejection contradicts the stated design. -/
theorem claim_C7_bug :
    |round2 ((29995 : ℚ)/1000) - round2 (30 : ℚ)| ≤ 1/100
    ∧ (create_expense_fp sampleStore
        ⟨some "dinner2", some (some 30), some "USD", some (some 1),
         some [⟨some 1, some 10, none⟩, ⟨some 2, some 10, none⟩,
               ⟨some 3, some (9995/1000), none⟩]⟩).1
        = .rejected (.splitMismatch (fl (2999/100)) 30) := by decide

/-- C3 counterexample: a create-expense request whose description strips to
the empty string is NOT rejected — `create_expense` checks only the amount,
the split list, and the referenced users, so the request is accepted and the
expense is created (refuting the claim that it is rejected with a validation
error). -/
theorem claim_C3_counterexample :
    pyStrip "   " = ""
    ∧ (create_expense sampleStore
        ⟨some "   ", some (some 10), some "USD", some (some 1),
         some [⟨some 1, some 10, none⟩]⟩).1
        = .created 2 := by decide

/-- C3 amended: a create-expense request whose description is empty after
trimming whitespace is not rejected for that reason; if the remaining checks
pass and the split total is within tolerance, the expense is created with the
empty description stored. -/
theorem claim_C3_amended (st : Store) (d c : String) (a : ℚ) (pid : ℤ)
    (ss : List SplitEntry)
    (hd : pyStrip d = "")
    (hpos : 0 < a) (hne : ss ≠ [])
    (hpayer : st.users.any (fun u => u.id == pid) = true)
    (huid : ∀ s ∈ ss, s.user_id.isSome)
    (husers : ∀ s ∈ ss, st.users.any (fun u => some u.id == s.user_id) = true)
    (hamt : ∀ s ∈ ss, s.amount.isSome)
    (htol : |round2 (totalSplitRaw ss) - round2 a| ≤ 1/100) :
    create_expense st ⟨some d, some (some a), some c, some (some pid), some ss⟩
      = (.created (nextExpenseId st),
         ⟨st.users, st.expenses ++ [⟨nextExpenseId st, "", a, c, pid⟩],
          st.splits ++ splitRows (nextSplitId st) (nextExpenseId st) ss⟩) := by
  rw [create_expense_split_check st d c a pid ss hpos hne hpayer huid husers hamt]
  rw [hd, if_neg (not_lt.mpr htol)]

theorem claim_C3_amended_witness :
    create_expense sampleStore
      ⟨some "   ", some (some 10), some "USD", some (some 1),
       some [⟨some 1, some 10, none⟩]⟩
      = (.created 2,
         ⟨sampleStore.users, sampleStore.expenses ++ [⟨2, "", 10, "USD", 1⟩],
          sampleStore.splits ++ splitRows 4 2 [⟨some 1, some 10, none⟩]⟩) :=
  claim_C3_amended sampleStore "   " "USD" 10 1 [⟨some 1, some 10, none⟩]
    (by decide) (by norm_num) (by decide) (by decide) (by decide) (by decide)
    (by decide) (by decide)

/-- Stores refuting order-independence of the binary64 balance scan: one
payer with expense amounts 2^53, 1, 1 in the two scan orders. -/
def permStoreA : Store :=
  ⟨[⟨1, "pat", "pat@x.com"⟩],
   [⟨1, "big", 9007199254740992, "USD", 1⟩, ⟨2, "one", 1, "USD", 1⟩,
    ⟨3, "uno", 1, "USD", 1⟩], []⟩

def permStoreB : Store :=
  ⟨[⟨1, "pat", "pat@x.com"⟩],
   [⟨3, "uno", 1, "USD", 1⟩, ⟨2, "one", 1, "USD", 1⟩,
    ⟨1, "big", 9007199254740992, "USD", 1⟩], []⟩

/-- C6 counterexample: the balances computation is NOT order-independent,
because line 162 accumulates binary64 doubles and double addition is not
associative.  Permuting one payer's expense amounts 2^53, 1, 1 changes the
scanned total: (2^53 + 1) + 1 rounds to 2^53 twice, while (1 + 1) + 2^53 is
exactly 2^53 + 2, so the two scan orders yield different balances. -/
theorem claim_C6_counterexample :
    permStoreA.users = permStoreB.users
    ∧ permStoreA.expenses.Perm permStoreB.expenses
    ∧ permStoreA.splits.Perm permStoreB.splits
    ∧ get_balances_fp permStoreA ≠ get_balances_fp permStoreB := by decide

/-- C6 amended: the balances result is unchanged by any reordering of the
expense and split scans that preserves, for each user, the relative order of
that user's own records — each accumulator folds exactly the same sequence
of binary64 additions, so interleaving records of different users never
matters.  (Unrestricted permutation invariance fails: reordering one user's
own amounts can change the binary64 sum, as the counterexample shows.) -/
theorem claim_C6_amended (st₁ st₂ : Store) (hu : st₁.users = st₂.users)
    (he : ∀ u ∈ st₂.users,
      (st₁.expenses.filter (fun e => e.payer_id == u.id)).map (·.amount)
        = (st₂.expenses.filter (fun e => e.payer_id == u.id)).map (·.amount))
    (hs : ∀ u ∈ st₂.users,
      (st₁.splits.filter (fun s => s.user_id == u.id)).map (·.amount)
        = (st₂.splits.filter (fun s => s.user_id == u.id)).map (·.amount)) :
    get_balances_fp st₁ = get_balances_fp st₂ := by
  unfold get_balances_fp
  rw [hu]
  refine List.map_congr_left (fun u hu2 => ?_)
  have hacc : accBalancesF st₁ u.id = accBalancesF st₂ u.id := by
    unfold accBalancesF
    rw [foldl_oweStepF, foldl_oweStepF, foldl_payStepF, foldl_payStepF]
    rw [hu, he u hu2, hs u hu2]
  rw [hacc]

/-- Two users with their records interleaved differently across users but in
the same per-user order. -/
def interleaveStoreA : Store :=
  ⟨[⟨1, "alice", "alice@x.com"⟩, ⟨2, "bob", "bob@x.com"⟩],
   [⟨1, "tea", 5, "USD", 1⟩, ⟨2, "cab", 7, "USD", 2⟩],
   [⟨1, 1, 1, 5, none⟩, ⟨2, 2, 2, 7, none⟩]⟩

def interleaveStoreB : Store :=
  ⟨[⟨1, "alice", "alice@x.com"⟩, ⟨2, "bob", "bob@x.com"⟩],
   [⟨2, "cab", 7, "USD", 2⟩, ⟨1, "tea", 5, "USD", 1⟩],
   [⟨2, 2, 2, 7, none⟩, ⟨1, 1, 1, 5, none⟩]⟩

theorem claim_C6_amended_witness :
    (∀ u ∈ interleaveStoreB.users,
      (interleaveStoreA.expenses.filter (fun e => e.payer_id == u.id)).map (·.amount)
        = (interleaveStoreB.expenses.filter (fun e => e.payer_id == u.id)).map (·.amount))
    ∧ get_balances_fp interleaveStoreA = get_balances_fp interleaveStoreB :=
  ⟨by decide,
   claim_C6_amended interleaveStoreA interleaveStoreB rfl (by decide) (by decide)⟩
/-- C9: a user who is neither the payer of any expense nor the ower of any
split gets a balances entry with `total_paid`, `total_owes` and
`net_balance` all zero — the user is not omitted and no error is raised. -/
theorem claim_C9 (st : Store) (u : User) (hu : u ∈ st.users)
    (hp : ∀ e ∈ st.expenses, e.payer_id ≠ u.id)
    (hs : ∀ s ∈ st.splits, s.user_id ≠ u.id) :
    (⟨u.id, u.username, 0, 0, 0⟩ : BalanceEntry) ∈ get_balances st := by
  rw [get_balances_eq]
  have hps : paidSum st u.id = 0 := by
    unfold paidSum
    have hnil : st.expenses.filter (fun e => e.payer_id == u.id) = [] := by
      rw [List.filter_eq_nil_iff]
      intro e he
      simpa using hp e he
    rw [hnil]
    rfl
  have hos : owesSum st u.id = 0 := by
    unfold owesSum
    have hnil : st.splits.filter (fun s => s.user_id == u.id) = [] := by
      rw [List.filter_eq_nil_iff]
      intro s hsm
      simpa using hs s hsm
    rw [hnil]
    rfl
  have hz : round2 0 = 0 := by decide
  refine List.mem_map.mpr ⟨u, hu, ?_⟩
  rw [hps, hos, hz]
  norm_num

def sampleStore4 : Store :=
  ⟨sampleUsers ++ [⟨4, "dave", "dave@x.com"⟩], sampleStore.expenses, sampleStore.splits⟩

theorem claim_C9_witness :
    (⟨4, "dave", "dave@x.com"⟩ : User) ∈ sampleStore4.users
    ∧ (⟨4, "dave", 0, 0, 0⟩ : BalanceEntry) ∈ get_balances sampleStore4 :=
  ⟨by decide,
   claim_C9 sampleStore4 ⟨4, "dave", "dave@x.com"⟩ (by decide) (by decide) (by decide)⟩

/-- C10: the balances computation is total even on stores violating
referential integrity — an expense whose payer matches no user and a split
whose ower matches no user are silently skipped (the result is unchanged by
them), and the result only ever contains one entry per existing user. -/
theorem claim_C10 (st : Store) (e : Expense) (s : ExpenseSplit)
    (hpe : ∀ u ∈ st.users, u.id ≠ e.payer_id)
    (hsu : ∀ u ∈ st.users, u.id ≠ s.user_id) :
    get_balances ⟨st.users, st.expenses ++ [e], st.splits ++ [s]⟩ = get_balances st
    ∧ (get_balances ⟨st.users, st.expenses ++ [e], st.splits ++ [s]⟩).map (·.user_id)
        = st.users.map (·.id) := by
  have hmain :
      get_balances ⟨st.users, st.expenses ++ [e], st.splits ++ [s]⟩ = get_balances st := by
    rw [get_balances_eq, get_balances_eq]
    refine List.map_congr_left (fun u hu => ?_)
    have hp : paidSum ⟨st.users, st.expenses ++ [e], st.splits ++ [s]⟩ u.id
        = paidSum st u.id := by
      unfold paidSum
      rw [List.filter_append]
      have : [e].filter (fun x => x.payer_id == u.id) = [] := by
        simp [Ne.symm (hpe u hu)]
      rw [this, List.append_nil]
    have ho : owesSum ⟨st.users, st.expenses ++ [e], st.splits ++ [s]⟩ u.id
        = owesSum st u.id := by
      unfold owesSum
      rw [List.filter_append]
      have : [s].filter (fun x => x.user_id == u.id) = [] := by
        simp [Ne.symm (hsu u hu)]
      rw [this, List.append_nil]
    rw [hp, ho]
  refine ⟨hmain, ?_⟩
  rw [hmain, get_balances_eq, List.map_map]
  rfl

theorem claim_C10_witness :
    get_balances ⟨sampleStore.users, sampleStore.expenses ++ [⟨9, "ghost", 50, "USD", 99⟩],
        sampleStore.splits ++ [⟨9, 9, 99, 50, none⟩]⟩
      = get_balances sampleStore
    ∧ (get_balances ⟨sampleStore.users, sampleStore.expenses ++ [⟨9, "ghost", 50, "USD", 99⟩],
        sampleStore.splits ++ [⟨9, 9, 99, 50, none⟩]⟩).map (·.user_id)
      = sampleStore.users.map (·.id) :=
  claim_C10 sampleStore ⟨9, "ghost", 50, "USD", 99⟩ ⟨9, 9, 99, 50, none⟩
    (by decide) (by decide)

/-- C4: expense creation is atomic — every create-expense request either
persists the new expense row together with all of its split rows (each
pointing at the new expense), or leaves the store exactly as it was; no
validation failure can leave a partial write behind. -/
theorem claim_C4 (st : Store) (req : ExpenseRequest) :
    (create_expense st req).2 = st
    ∨ ∃ ss : List SplitEntry, req.splits = some ss
        ∧ ∃ e : Expense,
            (create_expense st req).1 = .created e.id
            ∧ (create_expense st req).2
                = ⟨st.users, st.expenses ++ [e],
                   st.splits ++ splitRows (nextSplitId st) e.id ss⟩
            ∧ (splitRows (nextSplitId st) e.id ss).length = ss.length
            ∧ ∀ r ∈ splitRows (nextSplitId st) e.id ss, r.expense_id = e.id := by
  obtain ⟨d, am, c, pp, sp⟩ := req
  rcases d with _ | d
  · left; rfl
  rcases am with _ | am
  · left; rfl
  rcases c with _ | c
  · left; rfl
  rcases pp with _ | pp
  · left; rfl
  rcases sp with _ | ss
  · left; rfl
  rcases am with _ | a
  · left; rfl
  rcases pp with _ | pid
  · left; rfl
  unfold create_expense
  dsimp only
  split
  · left; rfl
  split
  · left; rfl
  split
  · left; rfl
  split
  · left; rfl
  split
  · left; rfl
  split
  · left; rfl
  right
  exact ⟨ss, rfl, ⟨nextExpenseId st, pyStrip d, a, c, pid⟩, rfl, rfl,
    splitRows_length _ _ _, splitRows_expense_id _ _ _⟩

/-- C5 is refuted by the code: a create-expense request with all required
top-level keys whose `payer_id` does not parse as an integer, or whose split
entry is missing `user_id` or `amount` (or they do not parse), makes the
handler raise an uncaught Python exception (`int`/`float`/`KeyError` with no
try/except) instead of returning a rejected operation with an error
message. -/
theorem claim_C5_bug :
    (create_expense sampleStore
      ⟨some "lunch", some (some 10), some "USD", some none,
       some [⟨some 1, some 10, none⟩]⟩).1 = .uncaught .payerIdParse
    ∧ (create_expense sampleStore
        ⟨some "lunch", some (some 10), some "USD", some (some 1),
         some [⟨none, some 10, none⟩]⟩).1 = .uncaught .splitUserIdParse
    ∧ (create_expense sampleStore
        ⟨some "lunch", some (some 10), some "USD", some (some 1),
         some [⟨some 1, none, none⟩]⟩).1 = .uncaught .splitAmountParse := by decide

/-- C8 counterexample: the duplicate check is not an exact match on the
request — `create_user` strips the request's username and email first, so a
request username `" alice "` that exactly matches no stored username (and an
email matching no stored email) is still rejected as a duplicate. -/
theorem claim_C8_counterexample :
    (∀ u ∈ sampleStore.users, u.username ≠ " alice " ∧ u.email ≠ "new@x.com")
    ∧ (create_user sampleStore " alice " "new@x.com").1 = .rejected .duplicateUser := by
  decide

/-- C8 amended: the duplicate comparison is made after trimming leading and
trailing whitespace from the request's username and email; against those
trimmed values the match is exact (case-sensitive, no other normalization).
With both trimmed fields non-empty, the request fails with a duplicate-user
error and persists nothing iff some stored user has exactly the trimmed
username or exactly the trimmed email. -/
theorem claim_C8 (st : Store) (un em : String)
    (hu : pyStrip un ≠ "") (he : pyStrip em ≠ "") :
    create_user st un em = (.rejected .duplicateUser, st)
      ↔ st.users.any (fun u => u.username == pyStrip un || u.email == pyStrip em)
          = true := by
  unfold create_user
  rw [if_neg (by simp [hu, he])]
  by_cases hdup :
      st.users.any (fun u => u.username == pyStrip un || u.email == pyStrip em) = true
  · rw [if_pos hdup]
    simp [hdup]
  · rw [if_neg hdup]
    simp only [hdup]
    exact iff_of_false (fun hx => nomatch congrArg Prod.fst hx) (by simp [hdup])

theorem claim_C8_witness :
    pyStrip " alice " ≠ ""
    ∧ (create_user sampleStore " alice " "new@x.com"
          = (.rejected .duplicateUser, sampleStore)
        ↔ sampleStore.users.any
            (fun u => u.username == pyStrip " alice " || u.email == pyStrip "new@x.com")
            = true) :=
  ⟨by decide, claim_C8 sampleStore " alice " "new@x.com" (by decide) (by decide)⟩

end Splitwise
